import Mathlib

/-!
Verification development for `rawmv` (src/main.rs), a `mv(1)`-like utility
without the `cp(1)` fallback.

Shallow embedding conventions:
* Paths are `String`s (the program treats them as opaque `PathBuf`s; only
  `file_name`, `join` and `is_dir` are ever consulted).
* The filesystem is abstracted by an `isDir : String → Bool` oracle, the only
  read-only query resolution performs.
* The rename system primitive (`renameat2` with optional `NOREPLACE`) is
  abstracted by an oracle `rename : Nat → Bool → RenameRes` giving, for the
  i-th operation and an `overwrite` flag, the outcome the OS would return.
* Standard input is a list of lines; `read_line` at EOF leaves the buffer
  empty, matching `io::stdin().read_line` returning 0 bytes read.
-/

namespace Rawmv

/-! ## Path model

`file_name` follows `std::path::Path::file_name`: the final normal component,
with trailing separators and inner `.` components normalized away; `none` for
the root path, the empty path, or a path terminating in `..`. -/

/-- Splitting a character list at every occurrence of a separator
(the structural core of `str::split('/')`). -/
def splitOnChar (sep : Char) : List Char → List Char → List (List Char)
  | [], acc => [acc.reverse]
  | c :: rest, acc =>
    if c = sep then acc.reverse :: splitOnChar sep rest []
    else splitOnChar sep rest (c :: acc)

def fileName (p : String) : Option String :=
  let comps := (splitOnChar '/' p.data []).filter
    (fun c => !(c.isEmpty || c = ['.']))
  match comps.getLast? with
  | none => none
  | some c => if c = ['.', '.'] then none else some ⟨c⟩

/-- `Path::join`: pushing an absolute path replaces, otherwise a separator is
inserted unless one is already present or the base is empty. -/
def pathJoin (dir base : String) : String :=
  if base.data.head? = some '/' then base
  else if dir = "" then base
  else if dir.data.getLast? = some '/' then dir ++ base
  else dir ++ "/" ++ base

/-! ## Argument parsing model (pico_args fragment used by the program) -/

/-- `pico_args::Arguments::contains`: find and consume the first argument equal
to the short or the long form of a flag. -/
def removeFirst (p : String → Bool) : List String → Bool × List String
  | [] => (false, [])
  | a :: rest =>
    if p a then (true, rest)
    else
      let (found, rest') := removeFirst p rest
      (found, a :: rest')

def containsFlag (short long : String) (args : List String) :
    Bool × List String :=
  removeFirst (fun a => a == short || a == long) args

/-- `pico_args::Arguments::opt_value_from_os_str`: find the first argument
equal to either form of the key and consume it together with the following
argument as its value (OsStr values are only accepted space-separated, never
via `=`); error when the key is last. -/
def takeValue (short long : String) : List String →
    Except String (Option String × List String)
  | [] => .ok (none, [])
  | a :: rest =>
    if a == short || a == long then
      match rest with
      | [] => .error ("the " ++ "'" ++ short ++ "'" ++
          " option doesn't have an associated value")
      | v :: rest' => .ok (some v, rest')
    else
      (takeValue short long rest).map (fun vr => (vr.1, a :: vr.2))

/-- The manual `--` handling at the top of `App::parse_args`: everything after
the first `--` token is drained off as tail positionals and the `--` itself is
dropped; flag parsing only ever sees the head part. -/
def splitDashDash (raw : List String) : List String × List String :=
  match raw.findIdx? (· == "--") with
  | none => (raw, [])
  | some pos => (raw.take pos, raw.drop (pos + 1))

/-! ## The App structure and operand resolution -/

structure App where
  force : Bool
  no_clobber : Bool
  interactive : Bool
  verbose : Bool
  operations : List (String × String)
  deriving Repr, DecidableEq

/-- `App::push_move_to_dir`: each source contributes the pair
`(src, target_dir.join(basename))`; a source without a base name aborts with a
usage error. -/
def push_move_to_dir (srcs : List String) (target_dir : String) :
    Except String (List (String × String)) :=
  match srcs with
  | [] => .ok []
  | src :: rest =>
    match fileName src with
    | none => .error ("Source doesn't have base name: " ++ src)
    | some base =>
      (push_move_to_dir rest target_dir).map
        (fun ops => (src, pathJoin target_dir base) :: ops)

/-- The mode dispatch of `App::parse_args` after flag extraction
(src/main.rs lines 119-141): no-target-directory mode, explicit
target-directory mode, or auto-detect on operand count and an `is_dir` query
on the second of exactly two operands. -/
def resolveOperands (no_target_directory : Bool)
    (target_directory : Option String) (positionals : List String)
    (isDir : String → Bool) : Except String (List (String × String)) :=
  if no_target_directory then
    match positionals with
    | [src, dest] => .ok [(src, dest)]
    | _ => .error ("Expect exact 2 operands when using " ++
        "'" ++ "--no-target-directory" ++ "'")
  else
    match target_directory with
    | some target_dir =>
      if positionals.isEmpty then .error "Missing file operand"
      else push_move_to_dir positionals target_dir
    | none =>
      match positionals with
      | [] => .error "Missing file operand"
      | [_] => .error "Missing destination operand"
      | [src, dest] =>
        if isDir dest = false then .ok [(src, dest)]
        else push_move_to_dir [src] dest
      | _ =>
        push_move_to_dir positionals.dropLast (positionals.getLastD "")

/-- All flag state extracted by `App::parse_args` before the mutual-exclusion
checks and operand resolution. -/
structure Flags where
  force : Bool
  no_clobber : Bool
  interactive : Bool
  verbose : Bool
  target_directory : Option String
  no_target_directory : Bool
  positionals : List String
  deriving Repr, DecidableEq

inductive FlagPhase where
  | exitHelp
  | exitVersion
  | err (msg : String)
  | ok (fl : Flags)
  deriving Repr, DecidableEq

/-- The flag-extraction phase of `App::parse_args`, in source order: split at
`--`, help, version, `-f`, `-n`, `-i`, `-v`, the `-t` value, `-T`; leftover
arguments chained with the tail positionals become the operand list. -/
def extractFlags (raw : List String) : FlagPhase :=
  let hd := (splitDashDash raw).1
  let tailPos := (splitDashDash raw).2
  let h := containsFlag "-h" "--help" hd
  if h.1 then .exitHelp
  else
    let vers := containsFlag "-V" "--version" h.2
    if vers.1 then .exitVersion
    else
      let f := containsFlag "-f" "--force" vers.2
      let n := containsFlag "-n" "--no-clobber" f.2
      let i := containsFlag "-i" "--interactive" n.2
      let v := containsFlag "-v" "--verbose" i.2
      match takeValue "-t" "--target-directory" v.2 with
      | .error msg => .err msg
      | .ok (target_directory, rest) =>
        let t := containsFlag "-T" "--no-target-directory" rest
        .ok ⟨f.1, n.1, i.1, v.1, target_directory, t.1, t.2 ++ tailPos⟩

inductive ParseResult where
  | exitHelp
  | exitVersion
  | usageError (msg : String)
  | ok (app : App)
  deriving Repr, DecidableEq

/-- `App::parse_args` end to end: flag extraction, the two `ensure!`
mutual-exclusion checks, then operand resolution. -/
def parse_args (raw : List String) (isDir : String → Bool) : ParseResult :=
  match extractFlags raw with
  | .exitHelp => .exitHelp
  | .exitVersion => .exitVersion
  | .err msg => .usageError msg
  | .ok fl =>
    if fl.force && fl.no_clobber then
      .usageError ("Cannot use " ++ "'" ++ "--force" ++ "'" ++ " and " ++
        "'" ++ "--no-clobber" ++ "'" ++ " together")
    else if fl.target_directory.isSome && fl.no_target_directory then
      .usageError ("Cannot use " ++ "'" ++ "--no-target-directory" ++ "'" ++
        " and " ++ "'" ++ "--target-directory" ++ "'" ++ " together")
    else
      match resolveOperands fl.no_target_directory fl.target_directory
          fl.positionals isDir with
      | .error msg => .usageError msg
      | .ok ops =>
        .ok ⟨fl.force, fl.no_clobber, fl.interactive, fl.verbose, ops⟩

/-! ## The rename executor (the loop in `main`) -/

inductive RenameErr where
  | alreadyExists
  | other (msg : String)
  deriving Repr, DecidableEq

/-- Result of one `do_rename` call (`io::Result<()>`); `alreadyExists` is the
`io::ErrorKind::AlreadyExists` kind the conflict branch tests for. -/
inductive RenameRes where
  | ok
  | err (e : RenameErr)
  deriving Repr, DecidableEq

/-- Observable classification of one operation, mirroring the end of the loop
body: the `Ok` match arm (with optional verbose print), the two `continue`
paths, and the `Err` arm which prints and sets `failed`. -/
inductive Outcome where
  | succeeded
  | skippedNoClobber
  | skippedUserDeclined
  | failed (e : RenameErr)
  deriving Repr, DecidableEq

def finishRes : RenameRes → Outcome
  | .ok => .succeeded
  | .err e => .failed e

def Outcome.isFailed : Outcome → Bool
  | .failed _ => true
  | _ => false

/-- `io::stdin().read_line`: one line consumed, or the buffer left empty at
EOF. -/
def readLine : List String → String × List String
  | [] => ("", [])
  | l :: ls => (l, ls)

def isWhitespaceChar (c : Char) : Bool :=
  c = ' ' || c = '\t' || c = '\n' || c = '\r'

/-- `str::trim`: whitespace stripped from both ends (restricted to the ASCII
whitespace fragment of Unicode `White_Space`). -/
def strTrim (s : String) : String :=
  ⟨((s.data.dropWhile isWhitespaceChar).reverse.dropWhile
      isWhitespaceChar).reverse⟩

/-- One iteration of the loop in `main` over `(src, dest)`: `rename` is the
OS oracle for this operation, taking the `overwrite` flag passed to
`do_rename`. Returns the outcome and the remaining stdin. -/
def execOp (force no_clobber interactive : Bool)
    (rename : Bool → RenameRes) (stdin : List String) :
    Outcome × List String :=
  let ret := rename force
  if force = false ∧ ret = .err .alreadyExists then
    if no_clobber then (.skippedNoClobber, stdin)
    else if interactive then
      let line := readLine stdin
      if strTrim line.1 = "y" then (finishRes (rename true), line.2)
      else (.skippedUserDeclined, line.2)
    else (finishRes ret, stdin)
  else (finishRes ret, stdin)

/-- The whole loop: operations in list order, stdin threaded through, `i` the
index of the first operation in the global list (the oracle is indexed by
operation position). -/
def execList (force no_clobber interactive : Bool)
    (rename : Nat → Bool → RenameRes) :
    List (String × String) → Nat → List String →
    List Outcome × List String
  | [], _, stdin => ([], stdin)
  | _ :: rest, i, stdin =>
    let r := execOp force no_clobber interactive (rename i) stdin
    let rs := execList force no_clobber interactive rename rest (i + 1) r.2
    (r.1 :: rs.1, rs.2)

def execMain (app : App) (rename : Nat → Bool → RenameRes)
    (stdin : List String) : List Outcome × List String :=
  execList app.force app.no_clobber app.interactive rename app.operations 0
    stdin

/-- The `failed` flag after the loop: it is set exactly in the `Err` match
arm, so it equals "some outcome is `failed`". -/
def anyFailed (outs : List Outcome) : Bool :=
  outs.any Outcome.isFailed

/-- `process::exit(1)` iff `failed` at the end of `main`. -/
def execExitCode (app : App) (rename : Nat → Bool → RenameRes)
    (stdin : List String) : Nat :=
  if anyFailed (execMain app rename stdin).1 then 1 else 0

/-- `main` end to end: a parse error prints and exits 1; help/version exit 0;
otherwise the executor's exit code. -/
def runExitCode (raw : List String) (isDir : String → Bool)
    (rename : Nat → Bool → RenameRes) (stdin : List String) : Nat :=
  match parse_args raw isDir with
  | .exitHelp => 0
  | .exitVersion => 0
  | .usageError _ => 1
  | .ok app => execExitCode app rename stdin

/-! ## Executor lemmas -/

theorem execOp_no_flags (r : Bool → RenameRes) (stdin : List String) :
    execOp false false false r stdin = (finishRes (r false), stdin) := by
  by_cases h : r false = .err .alreadyExists <;> simp [execOp, h]

theorem execOp_force (no_clobber interactive : Bool) (r : Bool → RenameRes)
    (stdin : List String) :
    execOp true no_clobber interactive r stdin =
      (finishRes (r true), stdin) := by
  simp [execOp]

theorem execOp_noClobber_skip (interactive : Bool) (r : Bool → RenameRes)
    (stdin : List String) (h : r false = .err .alreadyExists) :
    execOp false true interactive r stdin = (.skippedNoClobber, stdin) := by
  simp [execOp, h]

theorem execOp_noClobber_ok (interactive : Bool) (r : Bool → RenameRes)
    (stdin : List String) (h : r false = .ok) :
    execOp false true interactive r stdin = (.succeeded, stdin) := by
  simp [execOp, h, finishRes]

theorem execList_length (f n i : Bool) (r : Nat → Bool → RenameRes)
    (ops : List (String × String)) (k : Nat) (stdin : List String) :
    (execList f n i r ops k stdin).1.length = ops.length := by
  induction ops generalizing k stdin with
  | nil => rfl
  | cons a rest ih => simp [execList, ih]

theorem execList_no_flags (r : Nat → Bool → RenameRes)
    (ops : List (String × String)) (k : Nat) (stdin : List String) :
    (execList false false false r ops k stdin).1 =
      (List.range ops.length).map (fun j => finishRes (r (k + j) false)) := by
  induction ops generalizing k stdin with
  | nil => simp [execList]
  | cons a rest ih =>
    have hstep : (execList false false false r (a :: rest) k stdin).1 =
        finishRes (r k false) ::
          (execList false false false r rest (k + 1) stdin).1 := by
      simp [execList, execOp_no_flags]
    rw [hstep, ih, List.length_cons, List.range_succ_eq_map, List.map_cons,
      List.map_map]
    refine congrArg₂ List.cons (by rw [Nat.add_zero]) ?_
    refine List.map_congr_left (fun j _ => ?_)
    have hkj : k + 1 + j = k + (j + 1) := by omega
    simp [Function.comp, hkj]

theorem execList_noClobber_benign (interactive : Bool)
    (r : Nat → Bool → RenameRes)
    (h : ∀ j, r j false = .ok ∨ r j false = .err .alreadyExists)
    (ops : List (String × String)) (k : Nat) (stdin : List String) :
    anyFailed (execList false true interactive r ops k stdin).1 = false := by
  induction ops generalizing k stdin with
  | nil => simp [execList, anyFailed]
  | cons a rest ih =>
    rcases h k with hk | hk
    · simp [execList, execOp_noClobber_ok interactive (r k) stdin hk,
        anyFailed, Outcome.isFailed]
      have := ih (k + 1) stdin
      simpa [anyFailed] using this
    · simp [execList, execOp_noClobber_skip interactive (r k) stdin hk,
        anyFailed, Outcome.isFailed]
      have := ih (k + 1) stdin
      simpa [anyFailed] using this

theorem execList_force_stdin (no_clobber interactive : Bool)
    (r : Nat → Bool → RenameRes) (ops : List (String × String)) (k : Nat)
    (stdin : List String) :
    (execList true no_clobber interactive r ops k stdin).2 = stdin := by
  induction ops generalizing k stdin with
  | nil => rfl
  | cons a rest ih => simp [execList, execOp_force, ih]

/-! ## Resolver lemmas -/

theorem push_move_to_dir_ok (dir : String) (srcs : List String)
    (h : ∀ s ∈ srcs, (fileName s).isSome) :
    push_move_to_dir srcs dir =
      .ok (srcs.map (fun s => (s, pathJoin dir ((fileName s).getD "")))) := by
  induction srcs with
  | nil => rfl
  | cons a rest ih =>
    obtain ⟨b, hb⟩ := Option.isSome_iff_exists.mp (h a (by simp))
    have hrest := ih (fun s hs => h s (by simp [hs]))
    simp [push_move_to_dir, hb, hrest, Except.map]

theorem push_move_to_dir_err (dir : String) (srcs : List String) (s : String)
    (hs : s ∈ srcs) (hn : fileName s = none) :
    ∃ s', s' ∈ srcs ∧ fileName s' = none ∧
      push_move_to_dir srcs dir =
        .error ("Source doesn't have base name: " ++ s') := by
  induction srcs with
  | nil => cases hs
  | cons a rest ih =>
    cases hfa : fileName a with
    | none => exact ⟨a, by simp, hfa, by simp [push_move_to_dir, hfa]⟩
    | some b =>
      have hs' : s ∈ rest := by
        rcases List.mem_cons.mp hs with h | h
        · rw [← h] at hfa; rw [hfa] at hn; cases hn
        · exact h
      obtain ⟨s', hs'm, hs'n, heq⟩ := ih hs'
      exact ⟨s', by simp [hs'm], hs'n,
        by simp [push_move_to_dir, hfa, heq, Except.map]⟩

/-! ## Claims -/

/-- C4: execution processes the resolved operations strictly in list order
(one outcome per operation, no early abort), and the exit status is non-zero
iff some operation was classified `failed`; skipped outcomes are not
`failed` and never affect the exit code. -/
theorem claim_C4 (app : App) (rename : Nat → Bool → RenameRes)
    (stdin : List String) :
    (execMain app rename stdin).1.length = app.operations.length ∧
    (execExitCode app rename stdin = 1 ↔
      ∃ o ∈ (execMain app rename stdin).1, o.isFailed = true) ∧
    (execExitCode app rename stdin = 0 ↔
      ∀ o ∈ (execMain app rename stdin).1, o.isFailed = false) ∧
    Outcome.skippedNoClobber.isFailed = false ∧
    Outcome.skippedUserDeclined.isFailed = false := by
  have h1 : anyFailed (execMain app rename stdin).1 = true ↔
      ∃ o ∈ (execMain app rename stdin).1, o.isFailed = true := by
    simp [anyFailed, List.any_eq_true]
  have h0 : anyFailed (execMain app rename stdin).1 = false ↔
      ∀ o ∈ (execMain app rename stdin).1, o.isFailed = false := by
    simp [anyFailed, List.any_eq_false]
  refine ⟨execList_length _ _ _ _ _ _ _, ?_, ?_, rfl, rfl⟩
  · constructor
    · intro h
      refine h1.mp ?_
      cases hAF : anyFailed (execMain app rename stdin).1 with
      | false => simp [execExitCode, hAF] at h
      | true => rfl
    · intro h
      simp [execExitCode, h1.mpr h]
  · constructor
    · intro h
      refine h0.mp ?_
      cases hAF : anyFailed (execMain app rename stdin).1 with
      | false => rfl
      | true => simp [execExitCode, hAF] at h
    · intro h
      simp [execExitCode, h0.mpr h]

theorem claim_C4_witness :
    (execMain ⟨false, false, false, false, [("a", "b")]⟩ (fun _ _ => .ok)
      []).1.length = 1 ∧
    execExitCode ⟨false, false, false, false, [("a", "b")]⟩ (fun _ _ => .ok)
      [] = 0 :=
  ⟨(claim_C4 ⟨false, false, false, false, [("a", "b")]⟩ (fun _ _ => .ok)
      []).1,
   ((claim_C4 ⟨false, false, false, false, [("a", "b")]⟩ (fun _ _ => .ok)
      []).2.2.1).mpr (by decide)⟩

/-- C2: when a rename attempt fails with `AlreadyExists` and `force` is
false: with `no_clobber` the operation is skipped in place (no failure, stdin
untouched, execution proceeds) and a whole run of such operations exits 0;
with neither `no_clobber` nor `interactive` the operation is classified
`failed` and the run exits 1. -/
theorem claim_C2 :
    (∀ (interactive : Bool) (rename : Bool → RenameRes) (stdin : List String),
      rename false = .err .alreadyExists →
      execOp false true interactive rename stdin =
        (.skippedNoClobber, stdin)) ∧
    (∀ (rename : Bool → RenameRes) (stdin : List String),
      rename false = .err .alreadyExists →
      execOp false false false rename stdin =
        (.failed .alreadyExists, stdin)) ∧
    (∀ (app : App) (renv : Nat → Bool → RenameRes) (stdin : List String),
      app.force = false → app.no_clobber = true →
      (∀ j, renv j false = .ok ∨ renv j false = .err .alreadyExists) →
      execExitCode app renv stdin = 0) ∧
    (∀ (app : App) (renv : Nat → Bool → RenameRes) (stdin : List String),
      app.force = false → app.no_clobber = false → app.interactive = false →
      (∃ j, j < app.operations.length ∧ renv j false = .err .alreadyExists) →
      execExitCode app renv stdin = 1) := by
  refine ⟨?_, ?_, ?_, ?_⟩
  · intro interactive rename stdin h
    exact execOp_noClobber_skip interactive rename stdin h
  · intro rename stdin h
    rw [execOp_no_flags, h]
    rfl
  · intro app renv stdin hf hn hr
    have : anyFailed (execMain app renv stdin).1 = false := by
      unfold execMain
      rw [hf, hn]
      exact execList_noClobber_benign app.interactive renv hr _ _ _
    simp [execExitCode, this]
  · intro app renv stdin hf hn hi hex
    obtain ⟨j, hj, hrj⟩ := hex
    have hmain : (execMain app renv stdin).1 =
        (List.range app.operations.length).map
          (fun k => finishRes (renv k false)) := by
      unfold execMain
      rw [hf, hn, hi, execList_no_flags]
      simp
    have hfail : anyFailed (execMain app renv stdin).1 = true := by
      rw [hmain]
      simp only [anyFailed, List.any_eq_true]
      refine ⟨finishRes (renv j false), List.mem_map.mpr
        ⟨j, List.mem_range.mpr hj, rfl⟩, ?_⟩
      rw [hrj]
      rfl
    simp [execExitCode, hfail]

theorem claim_C2_witness :
    execOp false true false (fun _ => .err .alreadyExists) [] =
      (.skippedNoClobber, []) ∧
    execExitCode ⟨false, false, false, false, [("a", "b")]⟩
      (fun _ _ => .err .alreadyExists) [] = 1 :=
  ⟨claim_C2.1 false (fun _ => .err .alreadyExists) [] rfl,
   claim_C2.2.2.2 ⟨false, false, false, false, [("a", "b")]⟩
     (fun _ _ => .err .alreadyExists) [] rfl rfl rfl
     ⟨0, by decide, rfl⟩⟩

/-- C3: in interactive mode, a destination-exists conflict (force and
no_clobber both false) prompts and consumes exactly one line of stdin; the
rename is retried with overwrite forced iff the trimmed line is exactly
`"y"`, any other line (or EOF, which leaves the buffer empty) skips the
operation, which is not counted as a failure. -/
theorem claim_C3 :
    (∀ (rename : Bool → RenameRes) (line : String) (rest : List String),
      rename false = .err .alreadyExists →
      execOp false false true rename (line :: rest) =
        ((if strTrim line = "y" then finishRes (rename true)
          else .skippedUserDeclined), rest)) ∧
    (∀ (rename : Bool → RenameRes),
      rename false = .err .alreadyExists →
      execOp false false true rename [] = (.skippedUserDeclined, [])) ∧
    (∀ (rename : Bool → RenameRes) (line : String) (rest : List String),
      rename false = .err .alreadyExists → strTrim line ≠ "y" →
      (execOp false false true rename (line :: rest)).1.isFailed = false) := by
  refine ⟨?_, ?_, ?_⟩
  · intro rename line rest h
    by_cases hy : strTrim line = "y" <;> simp [execOp, h, readLine, hy]
  · intro rename h
    have hemp : strTrim "" = "" := rfl
    simp [execOp, h, readLine, hemp]
  · intro rename line rest h hy
    simp [execOp, h, readLine, hy, Outcome.isFailed]

theorem claim_C3_witness :
    execOp false false true (fun b => if b then .ok else .err .alreadyExists)
      ["yes"] = (.skippedUserDeclined, []) := by
  have h := claim_C3.1 (fun b => if b then .ok else .err .alreadyExists)
    "yes" [] (by decide)
  rw [h, if_neg (by decide)]

/-- C10: with `force` set, every operation's single rename is issued with
overwrite permitted from the start; the conflict branch is never entered, so
stdin is never read (no prompt, even with `interactive` set) and an existing
destination that the OS then overwrites yields a silent success. -/
theorem claim_C10 :
    (∀ (no_clobber interactive : Bool) (rename : Bool → RenameRes)
      (stdin : List String),
      execOp true no_clobber interactive rename stdin =
        (finishRes (rename true), stdin)) ∧
    (∀ (app : App) (renv : Nat → Bool → RenameRes) (stdin : List String),
      app.force = true → (execMain app renv stdin).2 = stdin) ∧
    (∀ (no_clobber : Bool) (rename : Bool → RenameRes) (stdin : List String),
      rename true = .ok →
      execOp true no_clobber true rename stdin = (.succeeded, stdin)) := by
  refine ⟨execOp_force, ?_, ?_⟩
  · intro app renv stdin hf
    unfold execMain
    rw [hf]
    exact execList_force_stdin _ _ _ _ _ _
  · intro no_clobber rename stdin h
    rw [execOp_force, h]
    rfl

theorem claim_C10_witness :
    (execMain ⟨true, false, true, false, [("a", "b")]⟩
      (fun _ _ => .ok) ["y"]).2 = ["y"] ∧
    execOp true false true (fun _ => .ok) ["y"] = (.succeeded, ["y"]) :=
  ⟨claim_C10.2.1 ⟨true, false, true, false, [("a", "b")]⟩ (fun _ _ => .ok)
     ["y"] rfl,
   claim_C10.2.2 false (fun _ => .ok) ["y"] rfl⟩

/-- C1: in auto-detect mode (no target-directory flags), 0 operands and 1
operand fail with usage errors; exactly 2 operands whose second is not an
existing directory give the single direct pair; otherwise (3+ operands, or 2
with the second an existing directory) the last operand is popped as the
target directory and each remaining operand maps, in order, to
`(src, target.join(basename src))`. -/
theorem claim_C1 :
    (∀ isDir : String → Bool,
      resolveOperands false none [] isDir = .error "Missing file operand") ∧
    (∀ (a : String) (isDir : String → Bool),
      resolveOperands false none [a] isDir =
        .error "Missing destination operand") ∧
    (∀ (a b : String) (isDir : String → Bool), isDir b = false →
      resolveOperands false none [a, b] isDir = .ok [(a, b)]) ∧
    (∀ (l : List String) (isDir : String → Bool),
      (3 ≤ l.length ∨ (l.length = 2 ∧ isDir (l.getLastD "") = true)) →
      (∀ s ∈ l.dropLast, (fileName s).isSome) →
      resolveOperands false none l isDir =
        .ok (l.dropLast.map
          (fun s => (s, pathJoin (l.getLastD "") ((fileName s).getD ""))))) := by
  refine ⟨fun isDir => rfl, fun a isDir => rfl, ?_, ?_⟩
  · intro a b isDir h
    simp [resolveOperands, h]
  · intro l isDir hlen hbase
    rcases hlen with h3 | ⟨h2, hdir⟩
    · match l, h3 with
      | a :: b :: c :: t, _ =>
        show push_move_to_dir ((a :: b :: c :: t).dropLast)
            ((a :: b :: c :: t).getLastD "") = _
        rw [push_move_to_dir_ok _ _ hbase]
    · obtain ⟨a, b, rfl⟩ := List.length_eq_two.mp h2
      have hd : (([a, b] : List String).getLastD "") = b := rfl
      rw [hd] at hdir
      have : resolveOperands false none [a, b] isDir =
          push_move_to_dir [a] b := by
        simp [resolveOperands, hdir]
      rw [this, push_move_to_dir_ok _ _ (by simpa using hbase)]
      rfl

theorem claim_C1_witness :
    resolveOperands false none ["x", "d"] (fun _ => false) =
      .ok [("x", "d")] ∧
    resolveOperands false none ["x", "y", "d"] (fun _ => false) =
      .ok [("x", "d/x"), ("y", "d/y")] ∧
    resolveOperands false none ["x", "d"] (fun _ => true) =
      .ok [("x", "d/x")] := by
  refine ⟨claim_C1.2.2.1 "x" "d" (fun _ => false) rfl, ?_, ?_⟩
  · have h := claim_C1.2.2.2 ["x", "y", "d"] (fun _ => false)
      (Or.inl (by decide)) (by decide)
    rw [h]
    rfl
  · have h := claim_C1.2.2.2 ["x", "d"] (fun _ => true)
      (Or.inr (by decide)) (by decide)
    rw [h]
    rfl

/-- C5: with `--no-target-directory`, any operand count other than 2 fails
with the dedicated usage error, exactly 2 operands give the verbatim pair,
and the result never depends on the filesystem. -/
theorem claim_C5 :
    (∀ (td : Option String) (positionals : List String)
      (isDir : String → Bool), positionals.length ≠ 2 →
      resolveOperands true td positionals isDir =
        .error ("Expect exact 2 operands when using " ++
          "'" ++ "--no-target-directory" ++ "'")) ∧
    (∀ (td : Option String) (src dest : String) (isDir : String → Bool),
      resolveOperands true td [src, dest] isDir = .ok [(src, dest)]) ∧
    (∀ (td : Option String) (positionals : List String)
      (isDir isDir' : String → Bool),
      resolveOperands true td positionals isDir =
        resolveOperands true td positionals isDir') := by
  refine ⟨?_, fun td src dest isDir => rfl, fun td ps isDir isDir' => rfl⟩
  intro td positionals isDir h
  match positionals, h with
  | [], _ => rfl
  | [a], _ => rfl
  | [a, b], h => exact absurd rfl h
  | a :: b :: c :: t, _ => rfl

theorem claim_C5_witness :
    resolveOperands true none ["x"] (fun _ => true) =
      .error ("Expect exact 2 operands when using " ++
        "'" ++ "--no-target-directory" ++ "'") ∧
    resolveOperands true none ["x", "y"] (fun _ => true) =
      .ok [("x", "y")] :=
  ⟨claim_C5.1 none ["x"] (fun _ => true) (by decide),
   claim_C5.2.1 none "x" "y" (fun _ => true)⟩

/-- C6: with an explicit target directory, zero operands fail with "Missing
file operand"; when every source has a base name each source maps, in order,
to `(src, dir.join(basename src))`; a source without a base name fails with
the "Source doesn't have base name" usage error naming that source. -/
theorem claim_C6 :
    (∀ (dir : String) (isDir : String → Bool),
      resolveOperands false (some dir) [] isDir =
        .error "Missing file operand") ∧
    (∀ (dir : String) (srcs : List String) (isDir : String → Bool),
      srcs ≠ [] → (∀ s ∈ srcs, (fileName s).isSome) →
      resolveOperands false (some dir) srcs isDir =
        .ok (srcs.map (fun s => (s, pathJoin dir ((fileName s).getD ""))))) ∧
    (∀ (dir : String) (srcs : List String) (isDir : String → Bool)
      (s : String), s ∈ srcs → fileName s = none →
      ∃ s', s' ∈ srcs ∧ fileName s' = none ∧
        resolveOperands false (some dir) srcs isDir =
          .error ("Source doesn't have base name: " ++ s')) := by
  refine ⟨fun dir isDir => rfl, ?_, ?_⟩
  · intro dir srcs isDir hne hbase
    match srcs, hne with
    | a :: rest, _ =>
      have : resolveOperands false (some dir) (a :: rest) isDir =
          push_move_to_dir (a :: rest) dir := rfl
      rw [this, push_move_to_dir_ok _ _ hbase]
  · intro dir srcs isDir s hs hn
    obtain ⟨s', hm, hn', heq⟩ := push_move_to_dir_err dir srcs s hs hn
    refine ⟨s', hm, hn', ?_⟩
    match srcs, hs with
    | a :: rest, _ =>
      have : resolveOperands false (some dir) (a :: rest) isDir =
          push_move_to_dir (a :: rest) dir := rfl
      rw [this, heq]

theorem claim_C6_witness :
    resolveOperands false (some "d") ["x", "a/b"] (fun _ => false) =
      .ok [("x", "d/x"), ("a/b", "d/b")] ∧
    resolveOperands false (some "d") ["/"] (fun _ => false) =
      .error ("Source doesn't have base name: " ++ "/") := by
  constructor
  · have h := claim_C6.2.1 "d" ["x", "a/b"] (fun _ => false)
      (by decide) (by decide)
    rw [h]
    rfl
  · obtain ⟨s', hm, hn', heq⟩ := claim_C6.2.2 "d" ["/"] (fun _ => false) "/"
      (by decide) (by decide)
    have hs' : s' = "/" := by
      rcases List.mem_singleton.mp hm with h
      exact h
    rw [hs'] at heq
    exact heq

/-- C7: an argument list carrying both the force and the no-clobber flag, or
both a target directory and the no-target-directory flag, fails with a usage
error that does not depend on the filesystem (no operand is inspected), and
the whole run exits 1 with no rename attempted. -/
theorem claim_C7 (raw : List String) (fl : Flags)
    (hext : extractFlags raw = .ok fl)
    (hc : (fl.force = true ∧ fl.no_clobber = true) ∨
      (fl.target_directory.isSome = true ∧ fl.no_target_directory = true)) :
    ∃ msg, (∀ isDir : String → Bool,
        parse_args raw isDir = .usageError msg) ∧
      (∀ (isDir : String → Bool) (rename : Nat → Bool → RenameRes)
        (stdin : List String), runExitCode raw isDir rename stdin = 1) := by
  by_cases hb : (fl.force && fl.no_clobber) = true
  · refine ⟨"Cannot use " ++ "'" ++ "--force" ++ "'" ++ " and " ++
      "'" ++ "--no-clobber" ++ "'" ++ " together",
      fun isDir => ?_, fun isDir rename stdin => ?_⟩
    · simp [parse_args, hext, hb]
    · simp [runExitCode, parse_args, hext, hb]
  · rcases hc with ⟨hf, hn⟩ | ⟨ht, hT⟩
    · exact absurd (by simp [hf, hn]) hb
    · have hb2 : (fl.target_directory.isSome && fl.no_target_directory)
          = true := by simp [ht, hT]
      refine ⟨"Cannot use " ++ "'" ++ "--no-target-directory" ++ "'" ++
        " and " ++ "'" ++ "--target-directory" ++ "'" ++ " together",
        fun isDir => ?_, fun isDir rename stdin => ?_⟩
      · simp [parse_args, hext, hb, hb2]
      · simp [runExitCode, parse_args, hext, hb, hb2]

theorem claim_C7_witness :
    runExitCode ["-f", "-n", "a", "b"] (fun _ => false) (fun _ _ => .ok) []
      = 1 ∧
    runExitCode ["-T", "-t", "d", "a", "b"] (fun _ => false)
      (fun _ _ => .ok) [] = 1 := by
  constructor
  · obtain ⟨msg, hparse, hrun⟩ := claim_C7 ["-f", "-n", "a", "b"]
      ⟨true, true, false, false, none, false, ["a", "b"]⟩ (by decide)
      (Or.inl ⟨rfl, rfl⟩)
    exact hrun (fun _ => false) (fun _ _ => .ok) []
  · obtain ⟨msg, hparse, hrun⟩ := claim_C7 ["-T", "-t", "d", "a", "b"]
      ⟨false, false, false, false, some "d", true, ["a", "b"]⟩ (by decide)
      (Or.inr ⟨rfl, rfl⟩)
    exact hrun (fun _ => false) (fun _ _ => .ok) []

/-- C8 as stated is false; this is the amended claim: a non-directory target
is never checked at resolution time. Explicit target-directory resolution
never consults the filesystem at all; auto-detect with 3+ operands pops the
last operand unconditionally; in both cases resolution succeeds whenever the
sources have base names, and a bad target only surfaces at execution time,
where any non-`AlreadyExists` OS error is classified `failed`. -/
theorem claim_C8 :
    (∀ (dir : String) (srcs : List String) (isDir isDir' : String → Bool),
      resolveOperands false (some dir) srcs isDir =
        resolveOperands false (some dir) srcs isDir') ∧
    (∀ (dir : String) (srcs : List String) (isDir : String → Bool),
      srcs ≠ [] → (∀ s ∈ srcs, (fileName s).isSome) →
      ∃ ops, resolveOperands false (some dir) srcs isDir = .ok ops) ∧
    (∀ (l : List String) (isDir : String → Bool),
      3 ≤ l.length → (∀ s ∈ l.dropLast, (fileName s).isSome) →
      ∃ ops, resolveOperands false none l isDir = .ok ops) ∧
    (∀ (force no_clobber interactive : Bool) (msg : String)
      (stdin : List String),
      execOp force no_clobber interactive (fun _ => .err (.other msg)) stdin
        = (.failed (.other msg), stdin)) := by
  refine ⟨fun dir srcs isDir isDir' => rfl, ?_, ?_, ?_⟩
  · intro dir srcs isDir hne hbase
    match srcs, hne with
    | a :: rest, _ =>
      have heq : resolveOperands false (some dir) (a :: rest) isDir =
          push_move_to_dir (a :: rest) dir := rfl
      rw [heq, push_move_to_dir_ok _ _ hbase]
      exact ⟨_, rfl⟩
  · intro l isDir h3 hbase
    match l, h3 with
    | a :: b :: c :: t, _ =>
      have heq : resolveOperands false none (a :: b :: c :: t) isDir =
          push_move_to_dir ((a :: b :: c :: t).dropLast)
            ((a :: b :: c :: t).getLastD "") := rfl
      rw [heq, push_move_to_dir_ok _ _ hbase]
      exact ⟨_, rfl⟩
  · intro force no_clobber interactive msg stdin
    cases force <;> simp [execOp, finishRes]

/-- C8 counterexample: the claim calls a non-directory target a
resolution-time usage error, but resolution succeeds on a target the
filesystem oracle says is not a directory, both in explicit `-t` mode and in
auto-detect mode with three operands. -/
theorem claim_C8_counterexample :
    resolveOperands false (some "/nonexistent") ["foo"] (fun _ => false) =
      .ok [("foo", "/nonexistent/foo")] ∧
    resolveOperands false none ["/foo", "/bar", "/nonexistent"]
      (fun _ => false) =
      .ok [("/foo", "/nonexistent/foo"), ("/bar", "/nonexistent/bar")] ∧
    parse_args ["-t", "/nonexistent", "foo"] (fun _ => false) =
      .ok ⟨false, false, false, false, [("foo", "/nonexistent/foo")]⟩ := by
  refine ⟨rfl, rfl, rfl⟩

theorem claim_C8_witness :
    resolveOperands false (some "nd") ["x"] (fun _ => false) =
      resolveOperands false (some "nd") ["x"] (fun _ => true) ∧
    execOp false false false (fun _ => .err (.other "Not a directory")) []
      = (.failed (.other "Not a directory"), []) := by
  constructor
  · exact claim_C8.1 "nd" ["x"] (fun _ => false) (fun _ => true)
  · exact claim_C8.2.2.2 false false false "Not a directory" []

/-- C9: every token after a literal `--` is a positional operand even if
flag-shaped: for `-f foo -- -n -t`, `-f` is the force flag, the positionals
are exactly `foo`, `-n`, `-t` in order, and auto-detect resolution pops `-t`
as the target directory. -/
theorem claim_C9 :
    extractFlags ["-f", "foo", "--", "-n", "-t"] =
      .ok ⟨true, false, false, false, none, false, ["foo", "-n", "-t"]⟩ ∧
    ∀ isDir : String → Bool,
      parse_args ["-f", "foo", "--", "-n", "-t"] isDir =
        .ok ⟨true, false, false, false,
          [("foo", "-t/foo"), ("-n", "-t/-n")]⟩ := by
  exact ⟨rfl, fun isDir => rfl⟩

end Rawmv
